import Mathlib

/-!
Verification of the requirement/test-case lifecycle of the test-case
generation backend (FastAPI routers over an SQLModel entity store).

The embedding models each router operation as a pure function over the
entity records.  JSON-string columns are modelled by their parsed values
(association lists), timestamps by naturals, Python floats by rationals,
and the LLM oracles by explicit outcome parameters at the call boundary.
Python round(x, 2) is modelled by exact decimal rounding half-to-even.
-/

/-- Lookup in an association list, mirroring Python dict.get. -/
def getAssoc {α : Type} : List (String × α) → String → Option α
  | [], _ => none
  | (k2, v) :: rest, k => if k2 = k then some v else getAssoc rest k

/-- Update of an association list, mirroring Python dict assignment:
an existing key keeps its position, a new key is appended at the end. -/
def setAssoc {α : Type} : List (String × α) → String → α → List (String × α)
  | [], k, v => [(k, v)]
  | (k2, v2) :: rest, k, v =>
      if k2 = k then (k2, v) :: rest else (k2, v2) :: setAssoc rest k v

/-- Round a rational to the nearest integer, ties to even, as CPython
round() does on an exactly representable value. -/
def roundHalfEven (q : Rat) : Int :=
  if q - ⌊q⌋ < 1/2 then ⌊q⌋
  else if 1/2 < q - ⌊q⌋ then ⌊q⌋ + 1
  else if ⌊q⌋ % 2 = 0 then ⌊q⌋ else ⌊q⌋ + 1

/-- Python round(x, 2): round to two decimal places, ties to even. -/
def round2 (q : Rat) : Rat := ((roundHalfEven (q * 100) : Int) : Rat) / 100

/-- Python x or d for an optional string x: None and the empty string
are falsy, so both fall through to the default. -/
def pyOrStr (x : Option String) (d : String) : String :=
  match x with
  | none => d
  | some s => if s = "" then d else s

/-- Structured-fields blob of a Requirement (the parsed JSON object),
modelled by the members the code reads: scalar fields as strings, the
nested field_confidences member read by the re-extraction, extraction
and pipeline paths, and the optional top-level overall_confidence
member read as a fallback by the pipeline path. -/
structure StructuredFields where
  fields : List (String × String)
  field_confidences : List (String × Rat)
  overall_confidence_member : Option Rat
deriving Repr, DecidableEq

/-- Requirement row (src/models.py). -/
structure Requirement where
  id : Nat
  doc_id : Nat
  requirement_id : Option String
  raw_text : String
  structured : StructuredFields
  field_confidences : List (String × Rat)
  overall_confidence : Rat
  status : String
  created_at : Nat
  updated_at : Nat
  version : Nat
  error_message : Option String
deriving Repr, DecidableEq

/-- TestCase row (src/models.py).  The generated-content columns are
kept as opaque strings (their JSON serialisation). -/
structure TestCase where
  id : Nat
  requirement_id : Nat
  test_case_id : String
  gherkin : Option String
  evidence_json : Option String
  automated_steps_json : Option String
  generated_at : Nat
  status : String
  jira_issue_key : Option String
  sample_data_json : Option String
  code_scaffold_str : Option String
  test_type : String
  regeneration_count : Nat
deriving Repr, DecidableEq

/-- JSON scalar supplied as an edit value by the human review payload,
modelled as well typed for the column it targets: strings for the
string columns, integers for the integer columns. -/
inductive EditVal where
  | s (v : String)
  | n (v : Nat)
deriving Repr, DecidableEq

/-- Parsed content of the diffs JSON column of a ReviewEvent: the
review router dumps a mapping field to old/new pair, the human review
router dumps the raw edits mapping. -/
inductive DiffPayload where
  | fieldDiffs (l : List (String × Option String × String))
  | editsDump (l : List (String × EditVal))
deriving Repr, DecidableEq

/-- ReviewEvent row (src/models.py). -/
structure ReviewEvent where
  requirement_id : Nat
  reviewer : String
  action : String
  note : Option String
  diffs : Option DiffPayload
  reviewer_confidence : Option Rat
  timestamp : Nat
deriving Repr, DecidableEq

/-- GenerationEvent row (src/models.py). -/
structure GenerationEvent where
  requirement_id : Option Nat
  generated_by : String
  model_name : Option String
  prompt : Option String
  raw_response : Option String
  timestamp : Nat
  produced_testcase_ids : Option (List Nat)
  reviewer_confidence : Option Rat
deriving Repr, DecidableEq

/-- Parsed request body of POST /api/review/req_id
(src/routers/review_router.py).  The edits mapping has unique keys
(it is a parsed JSON object); values are the scalar string fields. -/
structure ReviewInput where
  reviewer : String
  edits : List (String × String)
  review_confidence : Rat
  note : String
deriving Repr, DecidableEq

/-- review_requirement (src/routers/review_router.py, lines 16 to 56)
on a found Requirement: apply edits to the structured fields recording
diffs for changed values, set the confidence of every edited field to
round(clamp(c, 0, 0.99), 2), recompute overall confidence as the
rounded mean when the mapping is nonempty, decide approval at the 0.7
threshold, append one ReviewEvent, and mark every TestCase attached to
the Requirement stale. -/
def review_requirement (req : Requirement) (tcs : List TestCase)
    (inp : ReviewInput) (now : Nat) :
    Requirement × List TestCase × ReviewEvent :=
  let fields0 := req.structured.fields
  let diffs := inp.edits.filter (fun kv => getAssoc fields0 kv.1 ≠ some kv.2)
  let fields1 := inp.edits.foldl
    (fun m kv => if getAssoc m kv.1 = some kv.2 then m else setAssoc m kv.1 kv.2) fields0
  let fcv := round2 (max 0 (min (99/100) inp.review_confidence))
  let fc1 := (inp.edits.map (fun kv => kv.1)).foldl
    (fun m k => setAssoc m k fcv) req.field_confidences
  let overall :=
    if fc1.isEmpty then req.overall_confidence
    else round2 ((fc1.map (fun kv => kv.2)).sum / (fc1.length : Rat))
  let status := if inp.review_confidence ≥ 7/10 then "approved" else "needs_second_review"
  let req' := { req with
    structured := { req.structured with fields := fields1 }
    field_confidences := fc1
    overall_confidence := overall
    status := status
    updated_at := now }
  let ev : ReviewEvent := {
    requirement_id := req.id
    reviewer := inp.reviewer
    action := "edit_and_review"
    note := some inp.note
    diffs := if diffs.isEmpty then none
             else some (DiffPayload.fieldDiffs
               (diffs.map (fun kv => (kv.1, getAssoc fields0 kv.1, kv.2))))
    reviewer_confidence := some inp.review_confidence
    timestamp := now }
  let tcs' := tcs.map (fun t =>
    if t.requirement_id = req.id then { t with status := "stale" } else t)
  (req', tcs', ev)

/-- Marking stale touches exactly the attached test cases. -/
theorem mem_staleMap_attached (tcs : List TestCase) (rid : Nat) (t : TestCase)
    (ht : t ∈ tcs.map (fun t =>
      if t.requirement_id = rid then { t with status := "stale" } else t))
    (hr : t.requirement_id = rid) : t.status = "stale" := by
  rcases List.mem_map.mp ht with ⟨t0, _, h0⟩
  by_cases hc : t0.requirement_id = rid
  · simp [hc] at h0
    subst h0
    rfl
  · simp [hc] at h0
    subst h0
    exact absurd hr hc

/-- Claim C1: review_requirement sets the status of every TestCase whose
requirement_id equals the Requirement id to stale, even when the edit
mapping is empty; hence after the review no attached TestCase is in a
status other than stale or rejected. -/
theorem review_stales_attached_testcases (req : Requirement) (tcs : List TestCase)
    (inp : ReviewInput) (now : Nat) :
    (∀ t ∈ (review_requirement req tcs inp now).2.1,
        t.requirement_id = req.id →
          t.status = "stale" ∧ (t.status = "stale" ∨ t.status = "rejected")) ∧
    (∀ t ∈ (review_requirement req tcs { inp with edits := [] } now).2.1,
        t.requirement_id = req.id → t.status = "stale") := by
  refine ⟨fun t ht hr => ?_, fun t ht hr => ?_⟩
  · have hs := mem_staleMap_attached tcs req.id t ht hr
    exact ⟨hs, Or.inl hs⟩
  · exact mem_staleMap_attached tcs req.id t ht hr

def tcW1 : TestCase :=
  { id := 10, requirement_id := 1, test_case_id := "TC-REQ-1-1", gherkin := some "g"
    evidence_json := none, automated_steps_json := none, generated_at := 0
    status := "generated", jira_issue_key := none, sample_data_json := none
    code_scaffold_str := none, test_type := "positive", regeneration_count := 0 }

def reqW1 : Requirement :=
  { id := 1, doc_id := 5, requirement_id := some "REQ-AL-045", raw_text := "SpO2 < 88% alert"
    structured := { fields := [("subject", "SpO2")], field_confidences := []
                    overall_confidence_member := none }
    field_confidences := [("subject", 9/10)], overall_confidence := 9/10
    status := "approved", created_at := 0, updated_at := 0, version := 1
    error_message := none }

def inpW1 : ReviewInput :=
  { reviewer := "qa@example.com", edits := [], review_confidence := 4/5, note := "" }

/-- Witness for claim C1 at a concrete requirement with one attached
test case and an empty edit mapping. -/
theorem review_stales_attached_testcases_witness :
    ∃ t ∈ (review_requirement reqW1 [tcW1] inpW1 3).2.1,
      t.requirement_id = reqW1.id ∧ t.status = "stale" := by
  refine ⟨{ tcW1 with status := "stale" }, ?_, rfl, ?_⟩
  · simp [review_requirement, reqW1, tcW1]
  · exact ((review_stales_attached_testcases reqW1 [tcW1] inpW1 3).1
      { tcW1 with status := "stale" }
      (by simp [review_requirement, reqW1, tcW1]) rfl).1

/-- Claim C2: the Requirement status resulting from a review is approved
exactly when the reviewer confidence is at least 0.7 (the threshold is
inclusive: 0.7 itself yields approved) and needs_second_review below. -/
theorem review_confidence_threshold (req : Requirement) (tcs : List TestCase)
    (inp : ReviewInput) (now : Nat) :
    (review_requirement req tcs inp now).1.status =
      (if inp.review_confidence ≥ 7/10 then "approved" else "needs_second_review") ∧
    (review_requirement req tcs { inp with review_confidence := 7/10 } now).1.status
      = "approved" := by
  constructor
  · rfl
  · simp [review_requirement]

/-- Setting a key makes it readable back. -/
theorem getAssoc_setAssoc_self {α : Type} (m : List (String × α)) (k : String) (v : α) :
    getAssoc (setAssoc m k v) k = some v := by
  induction m with
  | nil => simp [setAssoc, getAssoc]
  | cons p rest ih =>
    obtain ⟨k2, v2⟩ := p
    by_cases h : k2 = k
    · simp [setAssoc, h, getAssoc]
    · simp [setAssoc, h, getAssoc, ih]

/-- Setting a different key leaves a lookup unchanged. -/
theorem getAssoc_setAssoc_ne {α : Type} (m : List (String × α)) {k k2 : String}
    (hne : k2 ≠ k) (v : α) :
    getAssoc (setAssoc m k2 v) k = getAssoc m k := by
  induction m with
  | nil => simp [setAssoc, getAssoc, hne]
  | cons p rest ih =>
    obtain ⟨k3, v3⟩ := p
    by_cases h : k3 = k2
    · subst h
      simp [setAssoc, getAssoc, hne]
    · by_cases h2 : k3 = k
      · subst h2
        simp [setAssoc, h, getAssoc, Ne.symm hne]
      · simp [setAssoc, h, getAssoc, h2, ih]

/-- After setting every key of a list to the same value, any key of the
list (or any key already holding that value) reads back that value. -/
theorem getAssoc_foldSet {α : Type} (v : α) (keys : List String)
    (m : List (String × α)) (k : String)
    (h : k ∈ keys ∨ getAssoc m k = some v) :
    getAssoc (keys.foldl (fun m2 k2 => setAssoc m2 k2 v) m) k = some v := by
  induction keys generalizing m with
  | nil =>
    rcases h with h | h
    · cases h
    · exact h
  | cons k2 rest ih =>
    apply ih
    by_cases hk : k ∈ rest
    · exact Or.inl hk
    · right
      rcases h with h | h
      · have hkk : k = k2 := by
          rcases List.mem_cons.mp h with h3 | h3
          · exact h3
          · exact absurd h3 hk
        subst hkk
        exact getAssoc_setAssoc_self m k v
      · by_cases he : k2 = k
        · subst he
          exact getAssoc_setAssoc_self m k2 v
        · rw [getAssoc_setAssoc_ne m he v]
          exact h

/-- Rounding half-to-even never goes below zero on a nonnegative input. -/
theorem roundHalfEven_nonneg {q : Rat} (h : 0 ≤ q) : 0 ≤ roundHalfEven q := by
  have hf : (0 : Int) ≤ ⌊q⌋ := Int.floor_nonneg.mpr h
  unfold roundHalfEven
  split
  · exact hf
  · split
    · omega
    · split
      · exact hf
      · omega

/-- Rounding half-to-even never exceeds an integer upper bound. -/
theorem roundHalfEven_le {q : Rat} {B : Int} (h : q ≤ (B : Rat)) :
    roundHalfEven q ≤ B := by
  have hfl : ⌊q⌋ ≤ B := by
    calc ⌊q⌋ ≤ ⌊(B : Rat)⌋ := Int.floor_mono h
    _ = B := Int.floor_intCast B
  unfold roundHalfEven
  split
  · exact hfl
  · rename_i h1
    have h2 : (1 : Rat)/2 ≤ q - ⌊q⌋ := not_lt.mp h1
    have hlt : ⌊q⌋ < B := by
      have h3 : (⌊q⌋ : Rat) < (B : Rat) := by linarith
      exact_mod_cast h3
    split
    · omega
    · split
      · exact hfl
      · omega

/-- Python round(x, 2) keeps a nonnegative value nonnegative. -/
theorem round2_nonneg {q : Rat} (h : 0 ≤ q) : 0 ≤ round2 q := by
  unfold round2
  have h1 : (0 : Int) ≤ roundHalfEven (q * 100) := roundHalfEven_nonneg (by linarith)
  have h2 : (0 : Rat) ≤ ((roundHalfEven (q * 100) : Int) : Rat) := by exact_mod_cast h1
  linarith

/-- Python round(x, 2) keeps a value at most 0.99 at most 0.99. -/
theorem round2_le_99 {q : Rat} (h : q ≤ 99/100) : round2 q ≤ 99/100 := by
  unfold round2
  have h1 : q * 100 ≤ ((99 : Int) : Rat) := by push_cast; linarith
  have h2 : roundHalfEven (q * 100) ≤ 99 := roundHalfEven_le h1
  have h3 : ((roundHalfEven (q * 100) : Int) : Rat) ≤ 99 := by exact_mod_cast h2
  linarith

def reqW9 : Requirement :=
  { id := 2, doc_id := 5, requirement_id := some "REQ-2", raw_text := "t"
    structured := { fields := [], field_confidences := [], overall_confidence_member := none }
    field_confidences := [], overall_confidence := 0
    status := "extracted", created_at := 0, updated_at := 0, version := 1
    error_message := none }

def inpW9 : ReviewInput :=
  { reviewer := "qa@example.com", edits := [("subject", "pump")]
    review_confidence := 5/8, note := "" }

/-- Counterexample to claim C9 as stated: reviewing with asserted
confidence 0.625 stores 0.62 for the edited field (the code rounds the
clamped confidence to two decimals), not the clamped confidence 0.625
the claim prescribes. -/
theorem review_confidence_rounding_counterexample :
    getAssoc ((review_requirement reqW9 [] inpW9 4).1.field_confidences) "subject"
      = some (31/50) ∧
    (31/50 : Rat) ≠ max 0 (min (99/100) (5/8)) := by
  constructor
  · show getAssoc (setAssoc [] "subject" (round2 (max 0 (min (99/100) (5/8))))) "subject"
      = some (31/50)
    rw [getAssoc_setAssoc_self]
    have : round2 (max 0 (min (99/100) (5/8))) = 31/50 := by
      have hmin : min ((99 : Rat)/100) (5/8) = 5/8 := by norm_num
      have hmax : max (0 : Rat) (5/8) = 5/8 := by norm_num
      rw [hmin, hmax]
      norm_num [round2, roundHalfEven]
    rw [this]
  · norm_num

/-- Claim C9 amended: for every field named in the edit mapping the
stored confidence is the reviewer confidence clamped to [0, 0.99] and
then rounded to two decimals (ties to even); it stays within [0, 0.99];
and overall_confidence is recomputed as the rounded arithmetic mean of
all stored field confidences whenever the stored mapping is nonempty
(it is left unchanged when the mapping is empty). -/
theorem review_confidence_clamp_round_mean (req : Requirement) (tcs : List TestCase)
    (inp : ReviewInput) (now : Nat) (k : String)
    (hk : k ∈ inp.edits.map (fun kv => kv.1)) :
    getAssoc ((review_requirement req tcs inp now).1.field_confidences) k
      = some (round2 (max 0 (min (99/100) inp.review_confidence))) ∧
    0 ≤ round2 (max 0 (min (99/100) inp.review_confidence)) ∧
    round2 (max 0 (min (99/100) inp.review_confidence)) ≤ 99/100 ∧
    ((review_requirement req tcs inp now).1.field_confidences ≠ [] →
      (review_requirement req tcs inp now).1.overall_confidence
        = round2 ((((review_requirement req tcs inp now).1.field_confidences).map
              (fun kv => kv.2)).sum
            / (((review_requirement req tcs inp now).1.field_confidences).length : Rat))) := by
  refine ⟨?_, ?_, ?_, ?_⟩
  · exact getAssoc_foldSet _ _ _ _ (Or.inl hk)
  · exact round2_nonneg (le_max_left _ _)
  · exact round2_le_99 (max_le (by norm_num) (min_le_left _ _))
  · intro hne
    have hproj : (review_requirement req tcs inp now).1.overall_confidence
        = (if ((review_requirement req tcs inp now).1.field_confidences).isEmpty
           then req.overall_confidence
           else round2 ((((review_requirement req tcs inp now).1.field_confidences).map
                 (fun kv => kv.2)).sum
               / (((review_requirement req tcs inp now).1.field_confidences).length : Rat))) :=
      rfl
    rw [hproj, if_neg]
    simpa using hne

/-- Witness for the amended claim C9 at confidence 0.625 and one edited
field on a requirement with no prior field confidences. -/
theorem review_confidence_clamp_round_mean_witness :
    getAssoc ((review_requirement reqW9 [] inpW9 4).1.field_confidences) "subject"
      = some (round2 (max 0 (min (99/100) (5/8)))) ∧
    (review_requirement reqW9 [] inpW9 4).1.overall_confidence
      = round2 ((((review_requirement reqW9 [] inpW9 4).1.field_confidences).map
            (fun kv => kv.2)).sum
          / (((review_requirement reqW9 [] inpW9 4).1.field_confidences).length : Rat)) := by
  have h := review_confidence_clamp_round_mean reqW9 [] inpW9 4 "subject"
    (by simp [inpW9])
  exact ⟨h.1, h.2.2.2 (by simp [review_requirement, reqW9, inpW9, setAssoc])⟩

/-- Result of call_vertex_extraction (src/services/extraction.py): the
parsed structured mapping together with the schema-validation error,
None on success and the validation message on failure. -/
structure VertexResult where
  structured : StructuredFields
  error : Option String
deriving Repr, DecidableEq

/-- New Requirement row built by update_and_re_extract_requirement
(src/routers/requirements_router.py, lines 74 to 94) from the old row
and the re-extraction result. -/
def mkNewRequirement (old : Requirement) (raw_text : String) (res : VertexResult)
    (now new_id : Nat) : Requirement :=
  let fc := res.structured.field_confidences
  { id := new_id
    doc_id := old.doc_id
    requirement_id := old.requirement_id
    raw_text := raw_text
    structured := res.structured
    field_confidences := fc
    overall_confidence := if fc.isEmpty then 1/2
      else round2 ((fc.map (fun kv => kv.2)).sum / (fc.length : Rat))
    status := match res.error with
      | some _ => "needs_manual_fix"
      | none => "extracted"
    created_at := now
    updated_at := now
    version := old.version + 1
    error_message := res.error }

/-- update_and_re_extract_requirement (src/routers/requirements_router.py,
lines 56 to 101): archive the old row, mark its test cases stale, and
append a freshly re-extracted row; None models the 404 path. -/
def update_and_re_extract_requirement (table : List Requirement) (tcs : List TestCase)
    (req_id : Nat) (raw_text : String) (res : VertexResult) (now new_id : Nat) :
    Option (List Requirement × List TestCase × Requirement) :=
  match table.find? (fun r => r.id == req_id) with
  | none => none
  | some old =>
    let nr := mkNewRequirement old raw_text res now new_id
    some ((table.map (fun r =>
             if r.id = req_id then { r with status := "archived" } else r)) ++ [nr],
          tcs.map (fun t =>
             if t.requirement_id = req_id then { t with status := "stale" } else t),
          nr)

/-- Claim C3: updating the raw text of a Requirement archives rather than
deletes: the old row ends archived, every attached TestCase ends stale,
a new row with the same doc_id and requirement_id, incremented version
and a non-archived status is inserted, and no Requirement row is lost. -/
theorem update_archives_never_deletes (table : List Requirement) (tcs : List TestCase)
    (req_id : Nat) (raw_text : String) (res : VertexResult) (now new_id : Nat)
    (old : Requirement) (hfind : table.find? (fun r => r.id == req_id) = some old) :
    ∃ table2 tcs2 nr,
      update_and_re_extract_requirement table tcs req_id raw_text res now new_id
        = some (table2, tcs2, nr) ∧
      { old with status := "archived" } ∈ table2 ∧
      nr ∈ table2 ∧
      nr.doc_id = old.doc_id ∧
      nr.requirement_id = old.requirement_id ∧
      nr.version = old.version + 1 ∧
      nr.status ≠ "archived" ∧
      (∀ t ∈ tcs2, t.requirement_id = req_id → t.status = "stale") ∧
      table2.length = table.length + 1 ∧
      (∀ r ∈ table, ∃ r2 ∈ table2, r2.id = r.id) := by
  have hid : old.id = req_id := by
    have := List.find?_some hfind
    simpa using this
  have hold : old ∈ table := List.mem_of_find?_eq_some hfind
  refine ⟨(table.map (fun r =>
      if r.id = req_id then { r with status := "archived" } else r))
        ++ [mkNewRequirement old raw_text res now new_id],
    tcs.map (fun t =>
      if t.requirement_id = req_id then { t with status := "stale" } else t),
    mkNewRequirement old raw_text res now new_id,
    ?_, ?_, ?_, rfl, rfl, rfl, ?_, ?_, ?_, ?_⟩
  · simp only [update_and_re_extract_requirement, hfind]
  · apply List.mem_append_left
    have hm := List.mem_map_of_mem
      (f := fun r => if r.id = req_id then { r with status := "archived" } else r) hold
    have hm2 : (if old.id = req_id then { old with status := "archived" } else old)
        ∈ table.map (fun r =>
            if r.id = req_id then { r with status := "archived" } else r) := hm
    rwa [if_pos hid] at hm2
  · exact List.mem_append_right _ (by simp)
  · cases h : res.error <;> simp [mkNewRequirement, h]
  · intro t ht hr
    exact mem_staleMap_attached tcs req_id t ht hr
  · simp
  · intro r hr
    refine ⟨if r.id = req_id then { r with status := "archived" } else r,
      List.mem_append_left _ (List.mem_map_of_mem _ hr), ?_⟩
    by_cases h : r.id = req_id <;> simp [h]

def resW3 : VertexResult :=
  { structured := { fields := [("type", "alert")], field_confidences := [("type", 4/5)]
                    overall_confidence_member := none }
    error := none }

/-- Witness for claim C3: one-row table holding reqW1 and its attached
test case tcW1, updated with a successful re-extraction result. -/
theorem update_archives_never_deletes_witness :
    ∃ table2 tcs2 nr,
      update_and_re_extract_requirement [reqW1] [tcW1] 1 "new text" resW3 9 2
        = some (table2, tcs2, nr) ∧
      { reqW1 with status := "archived" } ∈ table2 ∧
      nr ∈ table2 ∧
      nr.doc_id = reqW1.doc_id ∧
      nr.requirement_id = reqW1.requirement_id ∧
      nr.version = reqW1.version + 1 ∧
      nr.status ≠ "archived" ∧
      (∀ t ∈ tcs2, t.requirement_id = 1 → t.status = "stale") ∧
      table2.length = 1 + 1 ∧
      (∀ r ∈ [reqW1], ∃ r2 ∈ table2, r2.id = r.id) :=
  update_archives_never_deletes [reqW1] [tcW1] 1 "new text" resW3 9 2 reqW1 rfl

/-- Outcome of the oracle call made per paragraph by extract_for_doc
(src/routers/extraction_router.py, lines 69 to 105): the response fails
to parse as JSON, some other exception escapes the call, or the parsed
value is a mapping (or not). -/
inductive ExtractOutcome where
  | jsonError (msg : String)
  | exn (msg : String)
  | parsedDict (s : StructuredFields)
  | parsedNonDict
deriving Repr, DecidableEq

/-- Processing of one paragraph by extract_for_doc
(src/routers/extraction_router.py, lines 69 to 166): a parse failure or
any other oracle exception raises an HTTPException, aborting the request
with nothing persisted for the paragraph; otherwise one Requirement with
status extracted and no error_message plus one GenerationEvent are
persisted, with overall confidence the mean of the parsed field
confidences and 0.7 when there are none. -/
def extract_for_doc_paragraph (doc_id : Nat) (p : String) (o : ExtractOutcome)
    (now new_id : Nat) : Except String (Requirement × GenerationEvent) :=
  match o with
  | .jsonError msg => .error ("Invalid JSON response from extraction: " ++ msg)
  | .exn msg => .error ("Extraction failed for paragraph: " ++ msg)
  | .parsedDict s =>
      let fc := s.field_confidences
      .ok ({ id := new_id, doc_id := doc_id, requirement_id := none, raw_text := p
             structured := s, field_confidences := fc
             overall_confidence :=
               if fc.isEmpty then 7/10
               else (fc.map (fun kv => kv.2)).sum / (fc.length : Rat)
             status := "extracted", created_at := now, updated_at := now, version := 1
             error_message := none },
           { requirement_id := some new_id, generated_by := "gemini-extraction"
             model_name := some "gemini-2.5-flash-lite", prompt := some p
             raw_response := none, timestamp := now, produced_testcase_ids := none
             reviewer_confidence := none })
  | .parsedNonDict =>
      .ok ({ id := new_id, doc_id := doc_id, requirement_id := none, raw_text := p
             structured := { fields := [], field_confidences := []
                             overall_confidence_member := none }
             field_confidences := [], overall_confidence := 7/10
             status := "extracted", created_at := now, updated_at := now, version := 1
             error_message := none },
           { requirement_id := some new_id, generated_by := "gemini-extraction"
             model_name := some "gemini-2.5-flash-lite", prompt := some p
             raw_response := none, timestamp := now, produced_testcase_ids := none
             reviewer_confidence := none })

/-- Counterexample to claim C4 as stated: when the oracle response for a
paragraph does not parse, extract_for_doc raises an HTTPException and
persists no Requirement at all for that paragraph, so extraction does
drop a paragraph without persisting a Requirement for it (and never
stores needs_manual_fix on any path). -/
theorem extraction_drops_unparseable_paragraph :
    extract_for_doc_paragraph 5 "SpO2 < 88% alert" (.jsonError "Expecting value") 0 1
      = Except.error "Invalid JSON response from extraction: Expecting value" := rfl

/-- Outcome of one call_vertex_extraction call as seen by
start_pipeline (src/routers/pipeline_router.py, lines 77 to 108): the
call either raises (retries exhausted, no JSON found, or parse failure)
or returns the structured mapping with the schema-validation error. -/
inductive PipelineOutcome where
  | exn (msg : String)
  | res (r : VertexResult)
deriving Repr, DecidableEq

/-- Processing of one paragraph by start_pipeline
(src/routers/pipeline_router.py, lines 77 to 108): an oracle exception
is printed and the paragraph skipped with nothing persisted; otherwise
one Requirement is persisted with status needs_manual_fix and the
validation error in error_message on schema-validation failure, and
status extracted otherwise; overall confidence is the mean of the field
confidences, falling back to the overall_confidence member of the
structured mapping, default 0.5. -/
def start_pipeline_paragraph (doc_id : Nat) (p : String) (o : PipelineOutcome)
    (now new_id : Nat) : Option Requirement :=
  match o with
  | .exn _ => none
  | .res r =>
      let fc := r.structured.field_confidences
      some { id := new_id
             doc_id := doc_id
             requirement_id := none
             raw_text := p
             structured := r.structured
             field_confidences := fc
             overall_confidence :=
               if fc.isEmpty then r.structured.overall_confidence_member.getD (1/2)
               else (fc.map (fun kv => kv.2)).sum / (fc.length : Rat)
             status := match r.error with
               | some _ => "needs_manual_fix"
               | none => "extracted"
             created_at := now
             updated_at := now
             version := 1
             error_message := r.error }

/-- Claim C4 amended: the Extraction Stage router performs no schema
validation: an unparseable oracle response (or any oracle exception)
aborts the request without persisting a Requirement for the paragraph,
and every Requirement that router does persist has status extracted
with no error_message.  The needs_manual_fix tagging with the
validation error recorded in error_message belongs to the consumers of
the schema-validated call_vertex_extraction result: the raw-text
re-extraction path and the pipeline start path both persist the
Requirement with status needs_manual_fix and the error in
error_message on validation failure and with status extracted on
success, while the pipeline path drops a paragraph whose oracle call
raises. -/
theorem extraction_no_schema_validation_amended :
    (∀ (doc_id : Nat) (p : String) (o : ExtractOutcome) (now new_id : Nat),
        (∃ msg, extract_for_doc_paragraph doc_id p o now new_id = Except.error msg) ∨
        (∃ req ev, extract_for_doc_paragraph doc_id p o now new_id = Except.ok (req, ev) ∧
           req.status = "extracted" ∧ req.error_message = none ∧ req.raw_text = p)) ∧
    (∀ (old : Requirement) (raw : String) (s : StructuredFields) (e : String)
        (now new_id : Nat),
        (mkNewRequirement old raw { structured := s, error := some e } now new_id).status
          = "needs_manual_fix" ∧
        (mkNewRequirement old raw { structured := s, error := some e } now new_id).error_message
          = some e ∧
        (mkNewRequirement old raw { structured := s, error := none } now new_id).status
          = "extracted") ∧
    (∀ (doc_id : Nat) (p : String) (s : StructuredFields) (e : String) (now new_id : Nat),
        (∃ req, start_pipeline_paragraph doc_id p
              (PipelineOutcome.res { structured := s, error := some e }) now new_id
            = some req ∧
          req.status = "needs_manual_fix" ∧ req.error_message = some e ∧
          req.raw_text = p) ∧
        (∃ req, start_pipeline_paragraph doc_id p
              (PipelineOutcome.res { structured := s, error := none }) now new_id
            = some req ∧
          req.status = "extracted" ∧ req.error_message = none ∧ req.raw_text = p) ∧
        (∀ msg, start_pipeline_paragraph doc_id p (PipelineOutcome.exn msg) now new_id
            = none)) := by
  refine ⟨?_, ?_, ?_⟩
  · intro doc_id p o now new_id
    cases o with
    | jsonError msg => exact Or.inl ⟨_, rfl⟩
    | exn msg => exact Or.inl ⟨_, rfl⟩
    | parsedDict s => exact Or.inr ⟨_, _, rfl, rfl, rfl, rfl⟩
    | parsedNonDict => exact Or.inr ⟨_, _, rfl, rfl, rfl, rfl⟩
  · intro old raw s e now new_id
    exact ⟨rfl, rfl, rfl⟩
  · intro doc_id p s e now new_id
    exact ⟨⟨_, rfl, rfl, rfl, rfl⟩, ⟨_, rfl, rfl, rfl, rfl⟩, fun msg => rfl⟩

/-- GenerationEvent appended by generate_confirm for one confirmed
test case (src/routers/generate_router.py, lines 279 to 288). -/
def mkConfirmEvent (rc : Option Rat) (now : Nat) (t : TestCase) : GenerationEvent :=
  { requirement_id := some t.requirement_id
    generated_by := "user-confirm"
    model_name := none
    prompt := none
    raw_response := none
    timestamp := now
    produced_testcase_ids := some [t.id]
    reviewer_confidence := rc }

/-- generate_confirm (src/routers/generate_router.py, lines 250 to 293):
every fetched test case currently in preview moves to generated and gets
one audit GenerationEvent; every other test case is untouched. Returns
the updated table, the appended events, and the confirmed count. -/
def generate_confirm (tcs : List TestCase) (preview_ids : List Nat)
    (rc : Option Rat) (now : Nat) :
    List TestCase × List GenerationEvent × Nat :=
  let confirmed := tcs.filter (fun t =>
    decide (t.id ∈ preview_ids ∧ t.status = "preview"))
  ( tcs.map (fun t =>
      if t.id ∈ preview_ids ∧ t.status = "preview"
      then { t with status := "generated" } else t),
    confirmed.map (mkConfirmEvent rc now),
    confirmed.length )

/-- Confirm events produced from rows whose id differs from i never
carry produced id list [i]. -/
theorem confirm_events_filter_nil (rest : List TestCase) (q : TestCase → Bool)
    (rc : Option Rat) (now : Nat) (i : Nat) (h : ∀ t ∈ rest, t.id ≠ i) :
    ((rest.filter q).map (mkConfirmEvent rc now)).filter
      (fun ev => decide (ev.produced_testcase_ids = some [i])) = [] := by
  induction rest with
  | nil => rfl
  | cons t rest ih =>
    have hne : t.id ≠ i := h t (by simp)
    have ih2 := ih (fun t2 ht2 => h t2 (List.mem_cons_of_mem t ht2))
    by_cases hq : q t
    · simp [List.filter_cons, hq, mkConfirmEvent, hne, ih2]
    · simp [List.filter_cons, hq, ih2]

/-- In a table with distinct ids, the confirm events carrying produced
id list [tc.id] are exactly one event for tc when tc passes the filter,
and none otherwise. -/
theorem confirm_events_filter_eq (tcs : List TestCase) (q : TestCase → Bool)
    (rc : Option Rat) (now : Nat) (tc : TestCase)
    (hnd : (tcs.map (fun t => t.id)).Nodup) (htc : tc ∈ tcs) :
    ((tcs.filter q).map (mkConfirmEvent rc now)).filter
        (fun ev => decide (ev.produced_testcase_ids = some [tc.id]))
      = if q tc then [mkConfirmEvent rc now tc] else [] := by
  induction tcs with
  | nil => cases htc
  | cons t rest ih =>
    have hnd2 : (rest.map (fun t => t.id)).Nodup := (List.nodup_cons.mp hnd).2
    have hhead : t.id ∉ rest.map (fun t => t.id) := (List.nodup_cons.mp hnd).1
    rcases List.mem_cons.mp htc with rfl | hmem
    · have hrest : ∀ t2 ∈ rest, t2.id ≠ tc.id := by
        intro t2 ht2 he
        exact hhead (he ▸ List.mem_map_of_mem (fun t => t.id) ht2)
      by_cases hq : q tc
      · simp [List.filter_cons, hq, mkConfirmEvent,
          confirm_events_filter_nil rest q rc now tc.id hrest]
      · simp [List.filter_cons, hq,
          confirm_events_filter_nil rest q rc now tc.id hrest]
    · have hne : t.id ≠ tc.id := by
        intro he
        exact hhead (he ▸ List.mem_map_of_mem (fun t => t.id) hmem)
      have ih2 := ih hnd2 hmem
      by_cases hq : q t
      · simp [List.filter_cons, hq, mkConfirmEvent, hne, ih2]
      · simp [List.filter_cons, hq, ih2]

/-- Claim C5: generate_confirm transitions every fetched TestCase in
preview status to generated and appends exactly one GenerationEvent for
it recording the synthetic confirming identity and the optional
reviewer confidence, while every fetched TestCase not in preview is
left unchanged and gains no GenerationEvent. -/
theorem generate_confirm_spec (tcs : List TestCase) (preview_ids : List Nat)
    (rc : Option Rat) (now : Nat)
    (hnd : (tcs.map (fun t => t.id)).Nodup) :
    (∀ tc ∈ tcs, tc.id ∈ preview_ids → tc.status = "preview" →
        ({ tc with status := "generated" }
            ∈ (generate_confirm tcs preview_ids rc now).1 ∧
         ((generate_confirm tcs preview_ids rc now).2.1.filter
            (fun ev => decide (ev.produced_testcase_ids = some [tc.id])))
           = [mkConfirmEvent rc now tc] ∧
         (mkConfirmEvent rc now tc).generated_by = "user-confirm" ∧
         (mkConfirmEvent rc now tc).reviewer_confidence = rc ∧
         (mkConfirmEvent rc now tc).requirement_id = some tc.requirement_id)) ∧
    (∀ tc ∈ tcs, ¬ (tc.id ∈ preview_ids ∧ tc.status = "preview") →
        (tc ∈ (generate_confirm tcs preview_ids rc now).1 ∧
         ((generate_confirm tcs preview_ids rc now).2.1.filter
            (fun ev => decide (ev.produced_testcase_ids = some [tc.id]))) = [])) := by
  constructor
  · intro tc htc hin hprev
    refine ⟨?_, ?_, rfl, rfl, rfl⟩
    · have hm := List.mem_map_of_mem
        (f := fun t => if t.id ∈ preview_ids ∧ t.status = "preview"
              then { t with status := "generated" } else t) htc
      have hm2 : (if tc.id ∈ preview_ids ∧ tc.status = "preview"
            then { tc with status := "generated" } else tc)
          ∈ tcs.map (fun t => if t.id ∈ preview_ids ∧ t.status = "preview"
              then { t with status := "generated" } else t) := hm
      rwa [if_pos ⟨hin, hprev⟩] at hm2
    · have h := confirm_events_filter_eq tcs
        (fun t => decide (t.id ∈ preview_ids ∧ t.status = "preview")) rc now tc hnd htc
      rwa [if_pos (by simp [hin, hprev])] at h
  · intro tc htc hnot
    constructor
    · have hm := List.mem_map_of_mem
        (f := fun t => if t.id ∈ preview_ids ∧ t.status = "preview"
              then { t with status := "generated" } else t) htc
      have hm2 : (if tc.id ∈ preview_ids ∧ tc.status = "preview"
            then { tc with status := "generated" } else tc)
          ∈ tcs.map (fun t => if t.id ∈ preview_ids ∧ t.status = "preview"
              then { t with status := "generated" } else t) := hm
      rwa [if_neg hnot] at hm2
    · have h := confirm_events_filter_eq tcs
        (fun t => decide (t.id ∈ preview_ids ∧ t.status = "preview")) rc now tc hnd htc
      rwa [if_neg (by simpa using hnot)] at h

def tcP5 : TestCase :=
  { id := 21, requirement_id := 2, test_case_id := "TC-REQ-2-a", gherkin := some "g1"
    evidence_json := none, automated_steps_json := none, generated_at := 0
    status := "preview", jira_issue_key := none, sample_data_json := none
    code_scaffold_str := none, test_type := "positive", regeneration_count := 0 }

def tcG5 : TestCase :=
  { id := 22, requirement_id := 2, test_case_id := "TC-REQ-2-b", gherkin := some "g2"
    evidence_json := none, automated_steps_json := none, generated_at := 0
    status := "generated", jira_issue_key := none, sample_data_json := none
    code_scaffold_str := none, test_type := "negative", regeneration_count := 0 }

/-- Witness for claim C5: a preview test case and a generated one, both
fetched; only the preview one transitions and gains the one event. -/
theorem generate_confirm_spec_witness :
    ({ tcP5 with status := "generated" }
        ∈ (generate_confirm [tcP5, tcG5] [21, 22] (some (3/4)) 8).1) ∧
    ((generate_confirm [tcP5, tcG5] [21, 22] (some (3/4)) 8).2.1.filter
        (fun ev => decide (ev.produced_testcase_ids = some [21])))
      = [mkConfirmEvent (some (3/4)) 8 tcP5] ∧
    (tcG5 ∈ (generate_confirm [tcP5, tcG5] [21, 22] (some (3/4)) 8).1) ∧
    ((generate_confirm [tcP5, tcG5] [21, 22] (some (3/4)) 8).2.1.filter
        (fun ev => decide (ev.produced_testcase_ids = some [22]))) = [] := by
  have h := generate_confirm_spec [tcP5, tcG5] [21, 22] (some (3/4)) 8 (by decide)
  have h1 := h.1 tcP5 (by simp) (by decide) rfl
  have h2 := h.2 tcG5 (by simp) (by decide)
  exact ⟨h1.1, h1.2.1, h2.1, h2.2⟩


/-- Content fields parsed from a generation-oracle response, kept as
opaque strings (their JSON serialisation). -/
structure ParsedGen where
  gherkin : String
  evidence : String
  automated_steps : String
  sample_data : String
  code_scaffold : String
deriving Repr, DecidableEq

/-- Outcome of one generation-oracle call: a parsed mapping, a parsed
non-mapping value, a JSON parse failure, or another exception. -/
inductive GenOutcome where
  | ok (p : ParsedGen)
  | nonDict
  | jsonError (msg : String)
  | exn (msg : String)
deriving Repr, DecidableEq

/-- regenerate_single_preview (src/routers/generate_router.py, lines
309 to 408) on a found TestCase and its found Requirement: on a parsed
mapping it overwrites the content fields and refreshes generated_at in
place, leaving status and regeneration_count untouched; any failure
raises an HTTPException with nothing written. -/
def regenerate_single_preview (tc : TestCase) (o : GenOutcome) (now : Nat) :
    Except String TestCase :=
  match o with
  | .ok p => .ok { tc with
      gherkin := some p.gherkin
      evidence_json := some p.evidence
      automated_steps_json := some p.automated_steps
      sample_data_json := some p.sample_data
      code_scaffold_str := some p.code_scaffold
      generated_at := now }
  | .nonDict => .error "Regeneration failed: response is not a mapping"
  | .jsonError msg => .error ("Invalid JSON from regeneration: " ++ msg)
  | .exn msg => .error ("Regeneration failed: " ++ msg)

def findById (tcs : List TestCase) (i : Nat) : Option TestCase :=
  tcs.find? (fun t => t.id == i)

def findReq (reqs : List Requirement) (i : Nat) : Option Requirement :=
  reqs.find? (fun r => r.id == i)

def updateById (tcs : List TestCase) (i : Nat) (f : TestCase → TestCase) :
    List TestCase :=
  tcs.map (fun t => if t.id = i then f t else t)

/-- In-place update applied by regenerate_batch_preview to one processed
test case (src/routers/generate_router.py, lines 472 to 482): the batch
path rewrites gherkin, evidence and code scaffold, refreshes
generated_at, and increments regeneration_count. -/
def batchUpdate (p : ParsedGen) (now : Nat) (t : TestCase) : TestCase :=
  { t with
    gherkin := some p.gherkin
    evidence_json := some p.evidence
    code_scaffold_str := some p.code_scaffold
    generated_at := now
    regeneration_count := t.regeneration_count + 1 }

/-- State threaded through the batch regeneration loop. -/
structure BatchState where
  tcs : List TestCase
  count : Nat
deriving Repr, DecidableEq

/-- Tail of one batch iteration once the test case and its requirement
are resolved (src/routers/generate_router.py, lines 438 to 493): skip
when regeneration_count is positive or the oracle call fails or yields
a non-mapping, else apply batchUpdate. -/
def regenStepGuarded (oracle : Nat → GenOutcome) (now : Nat)
    (s : BatchState) (pid : Nat) (tc : TestCase) : BatchState :=
  if tc.regeneration_count > 0 then s
  else
    match oracle pid with
    | .ok p => { tcs := updateById s.tcs pid (batchUpdate p now)
                 count := s.count + 1 }
    | _ => s

/-- Middle of one batch iteration: resolve the requirement of the found
test case, skipping silently when it is missing. -/
def regenStepFound (reqs : List Requirement) (oracle : Nat → GenOutcome)
    (now : Nat) (s : BatchState) (pid : Nat) (tc : TestCase) : BatchState :=
  match findReq reqs tc.requirement_id with
  | none => s
  | some _ => regenStepGuarded oracle now s pid tc

/-- One iteration of regenerate_batch_preview
(src/routers/generate_router.py, lines 429 to 493): resolve the preview
id, skipping silently when the test case is missing. -/
def regenStep (reqs : List Requirement) (oracle : Nat → GenOutcome) (now : Nat)
    (s : BatchState) (pid : Nat) : BatchState :=
  match findById s.tcs pid with
  | none => s
  | some tc => regenStepFound reqs oracle now s pid tc

/-- regenerate_batch_preview (src/routers/generate_router.py, lines 411
to 500): fold of regenStep over the requested preview ids. -/
def regenerate_batch_preview (tcs : List TestCase) (reqs : List Requirement)
    (preview_ids : List Nat) (oracle : Nat → GenOutcome) (now : Nat) : BatchState :=
  preview_ids.foldl (regenStep reqs oracle now) { tcs := tcs, count := 0 }

theorem regenStep_of_none (reqs : List Requirement) (oracle : Nat → GenOutcome)
    (now : Nat) (s : BatchState) (pid : Nat) (h : findById s.tcs pid = none) :
    regenStep reqs oracle now s pid = s := by
  unfold regenStep
  rw [h]

theorem regenStep_of_some (reqs : List Requirement) (oracle : Nat → GenOutcome)
    (now : Nat) (s : BatchState) (pid : Nat) (tc : TestCase)
    (h : findById s.tcs pid = some tc) :
    regenStep reqs oracle now s pid = regenStepFound reqs oracle now s pid tc := by
  unfold regenStep
  rw [h]

theorem regenStepFound_of_none (reqs : List Requirement) (oracle : Nat → GenOutcome)
    (now : Nat) (s : BatchState) (pid : Nat) (tc : TestCase)
    (h : findReq reqs tc.requirement_id = none) :
    regenStepFound reqs oracle now s pid tc = s := by
  unfold regenStepFound
  rw [h]

theorem regenStepFound_of_some (reqs : List Requirement) (oracle : Nat → GenOutcome)
    (now : Nat) (s : BatchState) (pid : Nat) (tc : TestCase) (r : Requirement)
    (h : findReq reqs tc.requirement_id = some r) :
    regenStepFound reqs oracle now s pid tc = regenStepGuarded oracle now s pid tc := by
  unfold regenStepFound
  rw [h]

theorem regenStepGuarded_of_pos (oracle : Nat → GenOutcome) (now : Nat)
    (s : BatchState) (pid : Nat) (tc : TestCase) (h : 0 < tc.regeneration_count) :
    regenStepGuarded oracle now s pid tc = s := by
  unfold regenStepGuarded
  rw [if_pos h]

theorem regenStepGuarded_of_ok (oracle : Nat → GenOutcome) (now : Nat)
    (s : BatchState) (pid : Nat) (tc : TestCase) (p : ParsedGen)
    (hc : tc.regeneration_count = 0) (ho : oracle pid = GenOutcome.ok p) :
    regenStepGuarded oracle now s pid tc
      = { tcs := updateById s.tcs pid (batchUpdate p now), count := s.count + 1 } := by
  unfold regenStepGuarded
  rw [if_neg (by omega), ho]

theorem regenStepGuarded_of_fail (oracle : Nat → GenOutcome) (now : Nat)
    (s : BatchState) (pid : Nat) (tc : TestCase)
    (ho : ∀ p : ParsedGen, oracle pid ≠ GenOutcome.ok p) :
    regenStepGuarded oracle now s pid tc = s := by
  unfold regenStepGuarded
  split
  · rfl
  · cases h : oracle pid with
    | ok p => exact absurd h (ho p)
    | nonDict => rfl
    | jsonError msg => rfl
    | exn msg => rfl

/-- In a table with distinct ids, lookup by own id finds the row itself. -/
theorem findById_of_nodup (tcs : List TestCase) (tc : TestCase)
    (hnd : (tcs.map (fun t => t.id)).Nodup) (htc : tc ∈ tcs) :
    findById tcs tc.id = some tc := by
  induction tcs with
  | nil => cases htc
  | cons t rest ih =>
    rcases List.mem_cons.mp htc with rfl | hmem
    · unfold findById
      rw [List.find?_cons_of_pos _ (by simp)]
    · have hnd2 : (rest.map (fun t => t.id)).Nodup := (List.nodup_cons.mp hnd).2
      have hhead : t.id ∉ rest.map (fun t => t.id) := (List.nodup_cons.mp hnd).1
      have hne : t.id ≠ tc.id := fun he =>
        hhead (he ▸ List.mem_map_of_mem (fun t => t.id) hmem)
      unfold findById
      rw [List.find?_cons_of_neg _ (by simp [hne])]
      exact ih hnd2 hmem

/-- updateById with an id-preserving function keeps the id column. -/
theorem updateById_ids (tcs : List TestCase) (i : Nat) (f : TestCase → TestCase)
    (hf : ∀ t, (f t).id = t.id) :
    (updateById tcs i f).map (fun t => t.id) = tcs.map (fun t => t.id) := by
  induction tcs with
  | nil => rfl
  | cons t rest ih =>
    by_cases h : t.id = i
    · simp [updateById, h, hf] at ih ⊢
      exact ih
    · simp [updateById, h] at ih ⊢
      exact ih

/-- Rows whose id differs from the updated id survive updateById. -/
theorem mem_updateById_of_ne (tcs : List TestCase) (tc : TestCase)
    (htc : tc ∈ tcs) (i : Nat) (f : TestCase → TestCase) (hne : tc.id ≠ i) :
    tc ∈ updateById tcs i f := by
  have hm := List.mem_map_of_mem (f := fun t => if t.id = i then f t else t) htc
  have hm2 : (if tc.id = i then f tc else tc) ∈ updateById tcs i f := hm
  rwa [if_neg hne] at hm2

/-- The updated image of a matching row is in updateById. -/
theorem mem_updateById_self (tcs : List TestCase) (tc : TestCase)
    (htc : tc ∈ tcs) (i : Nat) (f : TestCase → TestCase) (heq : tc.id = i) :
    f tc ∈ updateById tcs i f := by
  have hm := List.mem_map_of_mem (f := fun t => if t.id = i then f t else t) htc
  have hm2 : (if tc.id = i then f tc else tc) ∈ updateById tcs i f := hm
  rwa [if_pos heq] at hm2

/-- One batch iteration never changes the id column. -/
theorem regenStep_ids (reqs : List Requirement) (oracle : Nat → GenOutcome)
    (now : Nat) (s : BatchState) (pid : Nat) :
    ((regenStep reqs oracle now s pid).tcs).map (fun t => t.id)
      = s.tcs.map (fun t => t.id) := by
  cases hf : findById s.tcs pid with
  | none => rw [regenStep_of_none reqs oracle now s pid hf]
  | some tc =>
    rw [regenStep_of_some reqs oracle now s pid tc hf]
    cases hr : findReq reqs tc.requirement_id with
    | none => rw [regenStepFound_of_none reqs oracle now s pid tc hr]
    | some r =>
      rw [regenStepFound_of_some reqs oracle now s pid tc r hr]
      by_cases hc : 0 < tc.regeneration_count
      · rw [regenStepGuarded_of_pos oracle now s pid tc hc]
      · cases ho : oracle pid with
        | ok p =>
          rw [regenStepGuarded_of_ok oracle now s pid tc p (by omega) ho]
          exact updateById_ids s.tcs pid (batchUpdate p now) (fun t => rfl)
        | nonDict =>
          rw [regenStepGuarded_of_fail oracle now s pid tc (by simp [ho])]
        | jsonError msg =>
          rw [regenStepGuarded_of_fail oracle now s pid tc (by simp [ho])]
        | exn msg =>
          rw [regenStepGuarded_of_fail oracle now s pid tc (by simp [ho])]

/-- One batch iteration leaves any row with positive regeneration_count
in the table unchanged (the skip guard). -/
theorem regenStep_preserves_skip (reqs : List Requirement)
    (oracle : Nat → GenOutcome) (now : Nat) (s : BatchState) (pid : Nat)
    (tc : TestCase) (hnd : (s.tcs.map (fun t => t.id)).Nodup)
    (htc : tc ∈ s.tcs) (hcount : 0 < tc.regeneration_count) :
    tc ∈ (regenStep reqs oracle now s pid).tcs := by
  cases hf : findById s.tcs pid with
  | none =>
    rw [regenStep_of_none reqs oracle now s pid hf]
    exact htc
  | some tc2 =>
    rw [regenStep_of_some reqs oracle now s pid tc2 hf]
    cases hr : findReq reqs tc2.requirement_id with
    | none =>
      rw [regenStepFound_of_none reqs oracle now s pid tc2 hr]
      exact htc
    | some r =>
      rw [regenStepFound_of_some reqs oracle now s pid tc2 r hr]
      by_cases hc : 0 < tc2.regeneration_count
      · rw [regenStepGuarded_of_pos oracle now s pid tc2 hc]
        exact htc
      · cases ho : oracle pid with
        | ok p =>
          rw [regenStepGuarded_of_ok oracle now s pid tc2 p (by omega) ho]
          apply mem_updateById_of_ne s.tcs tc htc pid (batchUpdate p now)
          intro he
          have hself : findById s.tcs tc.id = some tc :=
            findById_of_nodup s.tcs tc hnd htc
          rw [he, hf] at hself
          cases hself
          omega
        | nonDict =>
          rw [regenStepGuarded_of_fail oracle now s pid tc2 (by simp [ho])]
          exact htc
        | jsonError msg =>
          rw [regenStepGuarded_of_fail oracle now s pid tc2 (by simp [ho])]
          exact htc
        | exn msg =>
          rw [regenStepGuarded_of_fail oracle now s pid tc2 (by simp [ho])]
          exact htc

/-- One batch iteration for a different preview id leaves a row alone. -/
theorem regenStep_preserves_other (reqs : List Requirement)
    (oracle : Nat → GenOutcome) (now : Nat) (s : BatchState) (pid : Nat)
    (tc : TestCase) (htc : tc ∈ s.tcs) (hne : tc.id ≠ pid) :
    tc ∈ (regenStep reqs oracle now s pid).tcs := by
  cases hf : findById s.tcs pid with
  | none =>
    rw [regenStep_of_none reqs oracle now s pid hf]
    exact htc
  | some tc2 =>
    rw [regenStep_of_some reqs oracle now s pid tc2 hf]
    cases hr : findReq reqs tc2.requirement_id with
    | none =>
      rw [regenStepFound_of_none reqs oracle now s pid tc2 hr]
      exact htc
    | some r =>
      rw [regenStepFound_of_some reqs oracle now s pid tc2 r hr]
      by_cases hc : 0 < tc2.regeneration_count
      · rw [regenStepGuarded_of_pos oracle now s pid tc2 hc]
        exact htc
      · cases ho : oracle pid with
        | ok p =>
          rw [regenStepGuarded_of_ok oracle now s pid tc2 p (by omega) ho]
          exact mem_updateById_of_ne s.tcs tc htc pid (batchUpdate p now) hne
        | nonDict =>
          rw [regenStepGuarded_of_fail oracle now s pid tc2 (by simp [ho])]
          exact htc
        | jsonError msg =>
          rw [regenStepGuarded_of_fail oracle now s pid tc2 (by simp [ho])]
          exact htc
        | exn msg =>
          rw [regenStepGuarded_of_fail oracle now s pid tc2 (by simp [ho])]
          exact htc

/-- One batch iteration on the id of a row with regeneration_count zero,
an existing requirement and a successful oracle call puts the updated
row in the table. -/
theorem regenStep_processes (reqs : List Requirement) (oracle : Nat → GenOutcome)
    (now : Nat) (s : BatchState) (tc : TestCase) (p : ParsedGen)
    (hnd : (s.tcs.map (fun t => t.id)).Nodup) (htc : tc ∈ s.tcs)
    (hc : tc.regeneration_count = 0)
    (hreq : (findReq reqs tc.requirement_id).isSome = true)
    (ho : oracle tc.id = GenOutcome.ok p) :
    batchUpdate p now tc ∈ (regenStep reqs oracle now s tc.id).tcs := by
  have hf : findById s.tcs tc.id = some tc := findById_of_nodup s.tcs tc hnd htc
  obtain ⟨r, hr⟩ := Option.isSome_iff_exists.mp hreq
  rw [regenStep_of_some reqs oracle now s tc.id tc hf,
    regenStepFound_of_some reqs oracle now s tc.id tc r hr,
    regenStepGuarded_of_ok oracle now s tc.id tc p hc ho]
  exact mem_updateById_self s.tcs tc htc tc.id (batchUpdate p now) rfl

/-- Folding the batch loop preserves any row with positive
regeneration_count. -/
theorem regen_fold_skip (reqs : List Requirement) (oracle : Nat → GenOutcome)
    (now : Nat) (l : List Nat) (s : BatchState) (tc : TestCase)
    (hnd : (s.tcs.map (fun t => t.id)).Nodup) (htc : tc ∈ s.tcs)
    (hcount : 0 < tc.regeneration_count) :
    tc ∈ (l.foldl (regenStep reqs oracle now) s).tcs := by
  induction l generalizing s with
  | nil => exact htc
  | cons pid rest ih =>
    exact ih (regenStep reqs oracle now s pid)
      ((regenStep_ids reqs oracle now s pid) ▸ hnd)
      (regenStep_preserves_skip reqs oracle now s pid tc hnd htc hcount)

/-- Folding the batch loop over ids containing the id of a row with
regeneration_count zero, existing requirement and successful oracle
call puts the updated row in the final table. -/
theorem regen_fold_processes (reqs : List Requirement) (oracle : Nat → GenOutcome)
    (now : Nat) (l : List Nat) (s : BatchState) (tc : TestCase) (p : ParsedGen)
    (hnd : (s.tcs.map (fun t => t.id)).Nodup) (htc : tc ∈ s.tcs)
    (hc : tc.regeneration_count = 0)
    (hreq : (findReq reqs tc.requirement_id).isSome = true)
    (hid : tc.id ∈ l) (ho : oracle tc.id = GenOutcome.ok p) :
    batchUpdate p now tc ∈ (l.foldl (regenStep reqs oracle now) s).tcs := by
  induction l generalizing s with
  | nil => cases hid
  | cons pid rest ih =>
    by_cases he : pid = tc.id
    · subst he
      apply regen_fold_skip reqs oracle now rest _ _
        ((regenStep_ids reqs oracle now s tc.id) ▸ hnd)
        (regenStep_processes reqs oracle now s tc p hnd htc hc hreq ho)
      show 0 < tc.regeneration_count + 1
      exact Nat.succ_pos _
    · have hid2 : tc.id ∈ rest := by
        rcases List.mem_cons.mp hid with h | h
        · exact absurd h.symm he
        · exact h
      exact ih (regenStep reqs oracle now s pid)
        ((regenStep_ids reqs oracle now s pid) ▸ hnd)
        (regenStep_preserves_other reqs oracle now s pid tc htc
          (fun h => he h.symm))
        hid2

/-- Claim C6: batch regeneration skips every TestCase whose
regeneration_count is positive, leaving it unchanged, and every
TestCase with regeneration_count zero that it successfully processes
ends with regeneration_count one; single regeneration overwrites the
content fields and refreshes generated_at without touching status or
regeneration_count. -/
theorem regenerate_batch_guard_single_overwrite (tcs : List TestCase)
    (reqs : List Requirement) (preview_ids : List Nat)
    (oracle : Nat → GenOutcome) (now : Nat)
    (hnd : (tcs.map (fun t => t.id)).Nodup) :
    (∀ tc ∈ tcs, 0 < tc.regeneration_count →
        tc ∈ (regenerate_batch_preview tcs reqs preview_ids oracle now).tcs) ∧
    (∀ tc ∈ tcs, ∀ p : ParsedGen, tc.regeneration_count = 0 →
        (findReq reqs tc.requirement_id).isSome = true → tc.id ∈ preview_ids →
        oracle tc.id = GenOutcome.ok p →
        (batchUpdate p now tc
            ∈ (regenerate_batch_preview tcs reqs preview_ids oracle now).tcs ∧
         (batchUpdate p now tc).regeneration_count = 1 ∧
         (batchUpdate p now tc).id = tc.id ∧
         (batchUpdate p now tc).status = tc.status)) ∧
    (∀ (tc : TestCase) (p : ParsedGen) (now2 : Nat),
        regenerate_single_preview tc (GenOutcome.ok p) now2
          = Except.ok { tc with
              gherkin := some p.gherkin
              evidence_json := some p.evidence
              automated_steps_json := some p.automated_steps
              sample_data_json := some p.sample_data
              code_scaffold_str := some p.code_scaffold
              generated_at := now2 }) := by
  refine ⟨?_, ?_, fun tc p now2 => rfl⟩
  · intro tc htc hcount
    exact regen_fold_skip reqs oracle now preview_ids
      { tcs := tcs, count := 0 } tc hnd htc hcount
  · intro tc htc p hc hreq hid ho
    refine ⟨?_, ?_, rfl, rfl⟩
    · exact regen_fold_processes reqs oracle now preview_ids
        { tcs := tcs, count := 0 } tc p hnd htc hc hreq hid ho
    · simp [batchUpdate, hc]

def pW6 : ParsedGen :=
  { gherkin := "Given a patient monitor", evidence := "[]"
    automated_steps := "[]", sample_data := "null", code_scaffold := "pass" }

def tcSkip6 : TestCase :=
  { id := 31, requirement_id := 1, test_case_id := "TC-REQ-1-x", gherkin := some "old1"
    evidence_json := none, automated_steps_json := none, generated_at := 0
    status := "preview", jira_issue_key := none, sample_data_json := none
    code_scaffold_str := none, test_type := "positive", regeneration_count := 1 }

def tcGo6 : TestCase :=
  { id := 32, requirement_id := 1, test_case_id := "TC-REQ-1-y", gherkin := some "old2"
    evidence_json := none, automated_steps_json := none, generated_at := 0
    status := "preview", jira_issue_key := none, sample_data_json := none
    code_scaffold_str := none, test_type := "boundary", regeneration_count := 0 }

def oracle6 : Nat → GenOutcome :=
  fun i => if i = 32 then GenOutcome.ok pW6 else GenOutcome.nonDict

/-- Witness for claim C6: a batch over one already-regenerated and one
fresh test case skips the former, processes the latter to count one,
and the single path overwrites content only. -/
theorem regenerate_batch_guard_single_overwrite_witness :
    (tcSkip6 ∈ (regenerate_batch_preview [tcSkip6, tcGo6] [reqW1] [31, 32] oracle6 9).tcs) ∧
    (batchUpdate pW6 9 tcGo6
        ∈ (regenerate_batch_preview [tcSkip6, tcGo6] [reqW1] [31, 32] oracle6 9).tcs) ∧
    (batchUpdate pW6 9 tcGo6).regeneration_count = 1 ∧
    regenerate_single_preview tcGo6 (GenOutcome.ok pW6) 4
      = Except.ok { tcGo6 with
          gherkin := some pW6.gherkin
          evidence_json := some pW6.evidence
          automated_steps_json := some pW6.automated_steps
          sample_data_json := some pW6.sample_data
          code_scaffold_str := some pW6.code_scaffold
          generated_at := 4 } := by
  have h := regenerate_batch_guard_single_overwrite [tcSkip6, tcGo6] [reqW1]
    [31, 32] oracle6 9 (by decide)
  have h2 := h.2.1 tcGo6 (by simp) pW6 rfl rfl (by decide) rfl
  exact ⟨h.1 tcSkip6 (by simp) (by decide), h2.1, h2.2.1, h.2.2 tcGo6 pW6 4⟩


/-- Judge verdict schema (src/services/gemini_client.py, JudgeVerdict):
one-line feedback, short rationale, integer total rating on the 1 to 4
scale, and eight optional rubric subscores in [0, 1]. -/
structure JudgeVerdict where
  feedback : String
  evaluation : String
  total_rating : Int
  correctness_of_trigger : Option Rat
  timing_and_latency : Option Rat
  actions_and_priority : Option Rat
  logging_and_traceability : Option Rat
  standards_citations : Option Rat
  boundary_readiness : Option Rat
  consistency_and_no_hallucination : Option Rat
  confidence_and_warnings : Option Rat
deriving Repr, DecidableEq

/-- ReviewEvent persisted by evaluate_test_case
(src/routers/judge_router.py, lines 118 to 125). -/
def mkJudgeEvent (tc : TestCase) (verdict : JudgeVerdict) (now : Nat) : ReviewEvent :=
  { requirement_id := tc.requirement_id
    reviewer := "judge-llm"
    action := "judge_evaluation"
    note := some verdict.feedback
    diffs := none
    reviewer_confidence := some ((verdict.total_rating : Rat) / 4)
    timestamp := now }

/-- Continuation of evaluate_test_case once the test case is resolved:
resolve its requirement (404 when missing) and append the one event. -/
def evaluate_found (tcs : List TestCase) (reqs : List Requirement)
    (events : List ReviewEvent) (tc : TestCase) (verdict : JudgeVerdict)
    (now : Nat) : Option (List TestCase × List ReviewEvent) :=
  match findReq reqs tc.requirement_id with
  | none => none
  | some _ => some (tcs, events ++ [mkJudgeEvent tc verdict now])

/-- evaluate_test_case (src/routers/judge_router.py, lines 55 to 150) on
a successful judge call: resolve the test case and its requirement (404
otherwise, modelled as none), then append exactly one ReviewEvent; the
test-case table itself is never written. -/
def evaluate_test_case (tcs : List TestCase) (reqs : List Requirement)
    (events : List ReviewEvent) (tc_id : Nat) (verdict : JudgeVerdict) (now : Nat) :
    Option (List TestCase × List ReviewEvent) :=
  match findById tcs tc_id with
  | none => none
  | some tc => evaluate_found tcs reqs events tc verdict now

/-- Claim C7: a judge evaluation modifies no field of any TestCase (the
table is returned as it was) and its only write is one appended
ReviewEvent with reviewer judge-llm, note equal to the verdict feedback
and reviewer_confidence equal to total_rating divided by 4. -/
theorem judge_evaluation_frame (tcs : List TestCase) (reqs : List Requirement)
    (events : List ReviewEvent) (tc_id : Nat) (verdict : JudgeVerdict) (now : Nat)
    (tc : TestCase) (hf : findById tcs tc_id = some tc)
    (hr : (findReq reqs tc.requirement_id).isSome = true) :
    evaluate_test_case tcs reqs events tc_id verdict now
      = some (tcs, events ++ [mkJudgeEvent tc verdict now]) ∧
    (mkJudgeEvent tc verdict now).reviewer = "judge-llm" ∧
    (mkJudgeEvent tc verdict now).note = some verdict.feedback ∧
    (mkJudgeEvent tc verdict now).reviewer_confidence
      = some ((verdict.total_rating : Rat) / 4) ∧
    (mkJudgeEvent tc verdict now).requirement_id = tc.requirement_id := by
  obtain ⟨r, hr2⟩ := Option.isSome_iff_exists.mp hr
  refine ⟨?_, rfl, rfl, rfl, rfl⟩
  unfold evaluate_test_case
  rw [hf]
  show evaluate_found tcs reqs events tc verdict now = _
  unfold evaluate_found
  rw [hr2]

def verdictW7 : JudgeVerdict :=
  { feedback := "Trigger and actions align with the requirement."
    evaluation := "Consistent, no hallucination detected."
    total_rating := 3
    correctness_of_trigger := some 1
    timing_and_latency := none
    actions_and_priority := none
    logging_and_traceability := none
    standards_citations := none
    boundary_readiness := none
    consistency_and_no_hallucination := some 1
    confidence_and_warnings := none }

/-- Witness for claim C7 on a concrete one-row table: the table comes
back unchanged and the single appended event carries the normalized
confidence three quarters. -/
theorem judge_evaluation_frame_witness :
    evaluate_test_case [tcW1] [reqW1] [] 10 verdictW7 6
      = some ([tcW1], [] ++ [mkJudgeEvent tcW1 verdictW7 6]) ∧
    (mkJudgeEvent tcW1 verdictW7 6).reviewer = "judge-llm" ∧
    (mkJudgeEvent tcW1 verdictW7 6).note = some verdictW7.feedback ∧
    (mkJudgeEvent tcW1 verdictW7 6).reviewer_confidence
      = some ((verdictW7.total_rating : Rat) / 4) ∧
    (mkJudgeEvent tcW1 verdictW7 6).requirement_id = tcW1.requirement_id :=
  judge_evaluation_frame [tcW1] [reqW1] [] 10 verdictW7 6 tcW1 rfl rfl


/-- Parsed request body of POST /api/review/decide
(src/routers/human_review_router.py, HumanReviewDecision).  Edit values
are JSON scalars, modelled as well typed for the column they target. -/
structure HRDecision where
  test_case_id : Nat
  decision : String
  notes : Option String
  edits : Option (List (String × EditVal))
  regenerate_reason : Option String
deriving Repr, DecidableEq

/-- Response body of POST /api/review/decide
(src/routers/human_review_router.py, lines 167 to 173). -/
structure HRResponse where
  test_case_id : Nat
  decision : String
  status : String
  regeneration_count : Nat
  message : String
deriving Repr, DecidableEq

/-- String-valued setattr over the string-typed TestCase columns. -/
def setTcFieldStr (t : TestCase) (field v : String) : TestCase :=
  if field = "test_case_id" then { t with test_case_id := v }
  else if field = "gherkin" then { t with gherkin := some v }
  else if field = "evidence_json" then { t with evidence_json := some v }
  else if field = "automated_steps_json" then { t with automated_steps_json := some v }
  else if field = "sample_data_json" then { t with sample_data_json := some v }
  else if field = "code_scaffold_str" then { t with code_scaffold_str := some v }
  else if field = "status" then { t with status := v }
  else if field = "test_type" then { t with test_type := v }
  else if field = "jira_issue_key" then { t with jira_issue_key := some v }
  else t

/-- Integer-valued setattr over the integer-typed TestCase columns. -/
def setTcFieldNat (t : TestCase) (field : String) (v : Nat) : TestCase :=
  if field = "id" then { t with id := v }
  else if field = "requirement_id" then { t with requirement_id := v }
  else if field = "generated_at" then { t with generated_at := v }
  else if field = "regeneration_count" then { t with regeneration_count := v }
  else t

/-- Python setattr(tc, field, value) guarded by hasattr: a string value
reaches the string-typed columns, an integer value the integer-typed
columns (id, requirement_id, generated_at, regeneration_count), and an
unknown field name is skipped. -/
def setTcField (t : TestCase) (field : String) (value : EditVal) : TestCase :=
  match value with
  | .s v => setTcFieldStr t field v
  | .n v => setTcFieldNat t field v

/-- Python truthiness of the optional edits mapping: None and the empty
mapping are falsy. -/
def editsTruthy (e : Option (List (String × EditVal))) : Bool :=
  match e with
  | none => false
  | some l => !l.isEmpty

/-- The edit loop of the regenerate branch
(src/routers/human_review_router.py, lines 149 to 152). -/
def applyEdits (t : TestCase) (e : Option (List (String × EditVal))) : TestCase :=
  match e with
  | none => t
  | some l => l.foldl (fun t2 kv => setTcField t2 kv.1 kv.2) t

/-- ReviewEvent appended by the approve branch
(src/routers/human_review_router.py, lines 121 to 129). -/
def approveEvent (tc : TestCase) (d : HRDecision) (now : Nat) : ReviewEvent :=
  { requirement_id := tc.requirement_id
    reviewer := "human-qa"
    action := "approved"
    note := some (pyOrStr d.notes "Approved by QA after judge review")
    diffs := none
    reviewer_confidence := some 1
    timestamp := now }

/-- ReviewEvent appended by the reject branch
(src/routers/human_review_router.py, lines 134 to 142). -/
def rejectEvent (tc : TestCase) (d : HRDecision) (now : Nat) : ReviewEvent :=
  { requirement_id := tc.requirement_id
    reviewer := "human-qa"
    action := "rejected"
    note := some (pyOrStr d.notes "Rejected by QA")
    diffs := none
    reviewer_confidence := some 0
    timestamp := now }

/-- TestCase produced by the regenerate branch: status stale and bumped
counter first, then the supplied edits applied on top
(src/routers/human_review_router.py, lines 144 to 152). -/
def regenerateTc (tc : TestCase) (d : HRDecision) : TestCase :=
  if editsTruthy d.edits
  then applyEdits
    { tc with status := "stale", regeneration_count := tc.regeneration_count + 1 }
    d.edits
  else { tc with status := "stale", regeneration_count := tc.regeneration_count + 1 }

/-- ReviewEvent appended by the regenerate branch, built after the edit
loop has run, so it reads the post-edit requirement_id
(src/routers/human_review_router.py, lines 154 to 162). -/
def regenerateEvent (tc : TestCase) (d : HRDecision) (now : Nat) : ReviewEvent :=
  { requirement_id := (regenerateTc tc d).requirement_id
    reviewer := "human-qa"
    action := "request_regeneration"
    note := some (pyOrStr d.regenerate_reason
      (pyOrStr d.notes "Requested regeneration by QA"))
    diffs := if editsTruthy d.edits
      then some (DiffPayload.editsDump (d.edits.getD []))
      else none
    reviewer_confidence := none
    timestamp := now }

/-- human_review_decision (src/routers/human_review_router.py, lines
100 to 178) on a found TestCase: approve and reject set the status and
append one ReviewEvent; regenerate sets status stale and increments
regeneration_count, then applies the supplied edits, then appends one
ReviewEvent whose diffs dump the edits when truthy; any other decision
string matches no branch yet still commits and answers with the
unchanged status. -/
def human_review_decision (tc : TestCase) (d : HRDecision) (now : Nat) :
    TestCase × Option ReviewEvent × HRResponse :=
  let result :=
    if d.decision = "approve" then
      ({ tc with status := "generated" }, some (approveEvent tc d now))
    else if d.decision = "reject" then
      ({ tc with status := "rejected" }, some (rejectEvent tc d now))
    else if d.decision = "regenerate" then
      (regenerateTc tc d, some (regenerateEvent tc d now))
    else (tc, none)
  (result.1, result.2,
   { test_case_id := d.test_case_id
     decision := d.decision
     status := result.1.status
     regeneration_count := result.1.regeneration_count
     message := "Test case " ++ d.decision ++ " by human QA" })

theorem human_review_eq_approve (tc : TestCase) (d : HRDecision) (now : Nat)
    (hd : d.decision = "approve") :
    human_review_decision tc d now
      = ({ tc with status := "generated" }, some (approveEvent tc d now),
         { test_case_id := d.test_case_id
           decision := d.decision
           status := "generated"
           regeneration_count := tc.regeneration_count
           message := "Test case " ++ d.decision ++ " by human QA" }) := by
  unfold human_review_decision
  rw [if_pos hd]

theorem human_review_eq_reject (tc : TestCase) (d : HRDecision) (now : Nat)
    (hd : d.decision = "reject") :
    human_review_decision tc d now
      = ({ tc with status := "rejected" }, some (rejectEvent tc d now),
         { test_case_id := d.test_case_id
           decision := d.decision
           status := "rejected"
           regeneration_count := tc.regeneration_count
           message := "Test case " ++ d.decision ++ " by human QA" }) := by
  have hne1 : d.decision ≠ "approve" := by
    rw [hd]
    decide
  unfold human_review_decision
  rw [if_neg hne1, if_pos hd]

theorem human_review_eq_regenerate (tc : TestCase) (d : HRDecision) (now : Nat)
    (hd : d.decision = "regenerate") :
    human_review_decision tc d now
      = (regenerateTc tc d, some (regenerateEvent tc d now),
         { test_case_id := d.test_case_id
           decision := d.decision
           status := (regenerateTc tc d).status
           regeneration_count := (regenerateTc tc d).regeneration_count
           message := "Test case " ++ d.decision ++ " by human QA" }) := by
  have hne1 : d.decision ≠ "approve" := by
    rw [hd]
    decide
  have hne2 : d.decision ≠ "reject" := by
    rw [hd]
    decide
  unfold human_review_decision
  rw [if_neg hne1, if_neg hne2, if_pos hd]

/-- setattr on a field other than status leaves status unchanged. -/
theorem setTcFieldStr_status_of_ne (t : TestCase) (field v : String)
    (h : field ≠ "status") : (setTcFieldStr t field v).status = t.status := by
  unfold setTcFieldStr
  split_ifs <;> rfl

theorem setTcFieldNat_status (t : TestCase) (field : String) (v : Nat) :
    (setTcFieldNat t field v).status = t.status := by
  unfold setTcFieldNat
  split_ifs <;> rfl

theorem setTcField_status_of_ne (t : TestCase) (field : String) (value : EditVal)
    (h : field ≠ "status") : (setTcField t field value).status = t.status := by
  cases value with
  | s v => exact setTcFieldStr_status_of_ne t field v h
  | n v => exact setTcFieldNat_status t field v

/-- setattr on a field other than regeneration_count leaves the counter
unchanged. -/
theorem setTcFieldStr_count (t : TestCase) (field v : String) :
    (setTcFieldStr t field v).regeneration_count = t.regeneration_count := by
  unfold setTcFieldStr
  split_ifs <;> rfl

theorem setTcFieldNat_count_of_ne (t : TestCase) (field : String) (v : Nat)
    (h : field ≠ "regeneration_count") :
    (setTcFieldNat t field v).regeneration_count = t.regeneration_count := by
  unfold setTcFieldNat
  split_ifs <;> rfl

theorem setTcField_count_of_ne (t : TestCase) (field : String) (value : EditVal)
    (h : field ≠ "regeneration_count") :
    (setTcField t field value).regeneration_count = t.regeneration_count := by
  cases value with
  | s v => exact setTcFieldStr_count t field v
  | n v => exact setTcFieldNat_count_of_ne t field v h

/-- The edit loop leaves status unchanged when no edit names status. -/
theorem editFold_status (l : List (String × EditVal)) (t : TestCase)
    (h : "status" ∉ l.map (fun kv => kv.1)) :
    (l.foldl (fun t2 kv => setTcField t2 kv.1 kv.2) t).status = t.status := by
  induction l generalizing t with
  | nil => rfl
  | cons kv rest ih =>
    have h1 : kv.1 ≠ "status" := fun he => h (by simp [he])
    have h2 : "status" ∉ rest.map (fun kv => kv.1) := fun hm => h (by simp [hm])
    rw [List.foldl_cons]
    calc (rest.foldl (fun t2 kv => setTcField t2 kv.1 kv.2) (setTcField t kv.1 kv.2)).status
        = (setTcField t kv.1 kv.2).status := ih (setTcField t kv.1 kv.2) h2
      _ = t.status := setTcField_status_of_ne t kv.1 kv.2 h1

/-- The edit loop leaves regeneration_count unchanged when no edit
names regeneration_count. -/
theorem editFold_count (l : List (String × EditVal)) (t : TestCase)
    (h : "regeneration_count" ∉ l.map (fun kv => kv.1)) :
    (l.foldl (fun t2 kv => setTcField t2 kv.1 kv.2) t).regeneration_count
      = t.regeneration_count := by
  induction l generalizing t with
  | nil => rfl
  | cons kv rest ih =>
    have h1 : kv.1 ≠ "regeneration_count" := fun he => h (by simp [he])
    have h2 : "regeneration_count" ∉ rest.map (fun kv => kv.1) := fun hm => h (by simp [hm])
    rw [List.foldl_cons]
    calc (rest.foldl (fun t2 kv => setTcField t2 kv.1 kv.2) (setTcField t kv.1 kv.2)).regeneration_count
        = (setTcField t kv.1 kv.2).regeneration_count := ih (setTcField t kv.1 kv.2) h2
      _ = t.regeneration_count := setTcField_count_of_ne t kv.1 kv.2 h1

/-- The regenerate branch ends with the counter bumped by one whenever
no supplied edit names regeneration_count. -/
theorem regenerateTc_count (tc : TestCase) (d : HRDecision)
    (hnc : ∀ l, d.edits = some l → "regeneration_count" ∉ l.map (fun kv => kv.1)) :
    (regenerateTc tc d).regeneration_count = tc.regeneration_count + 1 := by
  unfold regenerateTc
  by_cases he : editsTruthy d.edits = true
  · rw [if_pos he]
    cases hE : d.edits with
    | none => rfl
    | some l =>
      show (l.foldl (fun t2 kv => setTcField t2 kv.1 kv.2) _).regeneration_count = _
      rw [editFold_count l _ (hnc l hE)]
  · rw [if_neg he]

/-- The regenerate branch ends in status stale whenever no supplied edit
names the status field. -/
theorem regenerateTc_status (tc : TestCase) (d : HRDecision)
    (hns : ∀ l, d.edits = some l → "status" ∉ l.map (fun kv => kv.1)) :
    (regenerateTc tc d).status = "stale" := by
  unfold regenerateTc
  by_cases he : editsTruthy d.edits = true
  · rw [if_pos he]
    cases hE : d.edits with
    | none => rfl
    | some l =>
      show (l.foldl (fun t2 kv => setTcField t2 kv.1 kv.2) _).status = _
      rw [editFold_status l _ (hns l hE)]
  · rw [if_neg he]

def dW8 : HRDecision :=
  { test_case_id := 21, decision := "regenerate", notes := none
    edits := some [("status", EditVal.s "generated"), ("regeneration_count", EditVal.n 5)]
    regenerate_reason := none }

/-- Counterexample to claim C8 as stated: the regenerate branch applies
the supplied field edits after the status assignment and the counter
increment, so a decision whose edit mapping names status and
regeneration_count ends with the edited status and counter, not the
stale status and incremented counter the claim prescribes. -/
theorem human_review_status_edit_counterexample :
    (human_review_decision tcP5 dW8 6).1.status = "generated" ∧
    (human_review_decision tcP5 dW8 6).1.status ≠ "stale" ∧
    (human_review_decision tcP5 dW8 6).1.regeneration_count = 5 ∧
    (human_review_decision tcP5 dW8 6).1.regeneration_count
      ≠ tcP5.regeneration_count + 1 := by
  refine ⟨rfl, by decide, rfl, by decide⟩

/-- Claim C8 amended: approve sets status generated and appends exactly
one ReviewEvent with confidence 1.0 and no diffs; reject sets status
rejected and appends exactly one ReviewEvent with confidence 0.0 and no
diffs; regenerate sets status stale, increments regeneration_count by
one and afterwards applies the supplied edits, so an edit naming status
or regeneration_count overrides the corresponding assignment while an
edit mapping naming neither leaves the TestCase stale with the counter
bumped by one, and appends exactly one ReviewEvent, built after the
edits, whose diffs are populated exactly when a nonempty edit mapping
was supplied. -/
theorem human_review_decision_amended (tc : TestCase) (d : HRDecision) (now : Nat) :
    (d.decision = "approve" →
        ((human_review_decision tc d now).1 = { tc with status := "generated" } ∧
         ∃ ev, (human_review_decision tc d now).2.1 = some ev ∧
           ev.reviewer = "human-qa" ∧ ev.action = "approved" ∧
           ev.reviewer_confidence = some 1 ∧ ev.diffs = none)) ∧
    (d.decision = "reject" →
        ((human_review_decision tc d now).1 = { tc with status := "rejected" } ∧
         ∃ ev, (human_review_decision tc d now).2.1 = some ev ∧
           ev.reviewer = "human-qa" ∧ ev.action = "rejected" ∧
           ev.reviewer_confidence = some 0 ∧ ev.diffs = none)) ∧
    (d.decision = "regenerate" →
        ((∀ l, d.edits = some l → "regeneration_count" ∉ l.map (fun kv => kv.1) →
             (human_review_decision tc d now).1.regeneration_count
               = tc.regeneration_count + 1) ∧
         (d.edits = none →
             (human_review_decision tc d now).1.regeneration_count
               = tc.regeneration_count + 1) ∧
         (∀ l, d.edits = some l → "status" ∉ l.map (fun kv => kv.1) →
             (human_review_decision tc d now).1.status = "stale") ∧
         (d.edits = none → (human_review_decision tc d now).1.status = "stale") ∧
         ∃ ev, (human_review_decision tc d now).2.1 = some ev ∧
           ev.reviewer = "human-qa" ∧ ev.action = "request_regeneration" ∧
           ev.requirement_id = (regenerateTc tc d).requirement_id ∧
           (ev.diffs ≠ none ↔ editsTruthy d.edits = true))) := by
  refine ⟨fun hd => ?_, fun hd => ?_, fun hd => ?_⟩
  · rw [human_review_eq_approve tc d now hd]
    exact ⟨rfl, approveEvent tc d now, rfl, rfl, rfl, rfl, rfl⟩
  · rw [human_review_eq_reject tc d now hd]
    exact ⟨rfl, rejectEvent tc d now, rfl, rfl, rfl, rfl, rfl⟩
  · rw [human_review_eq_regenerate tc d now hd]
    refine ⟨?_, ?_, ?_, ?_, regenerateEvent tc d now, rfl, rfl, rfl, rfl, ?_⟩
    · intro l hE hnc
      apply regenerateTc_count tc d
      intro l2 h2
      rw [hE] at h2
      injection h2 with h3
      rw [← h3]
      exact hnc
    · intro hE
      apply regenerateTc_count tc d
      intro l2 h2
      rw [hE] at h2
      cases h2
    · intro l hE hns
      apply regenerateTc_status tc d
      intro l2 h2
      rw [hE] at h2
      injection h2 with h3
      rw [← h3]
      exact hns
    · intro hE
      apply regenerateTc_status tc d
      intro l2 h2
      rw [hE] at h2
      cases h2
    · show (regenerateEvent tc d now).diffs ≠ none ↔ editsTruthy d.edits = true
      by_cases he : editsTruthy d.edits = true
      · simp [regenerateEvent, he]
      · simp [regenerateEvent, he]

def dW8b : HRDecision :=
  { test_case_id := 21, decision := "regenerate", notes := none
    edits := some [("gherkin", EditVal.s "Given an edited scenario")]
    regenerate_reason := some "tighten the trigger" }

/-- Witness for the amended claim C8: a regenerate decision carrying a
gherkin edit bumps the counter, lands in stale, and its one event has
populated diffs. -/
theorem human_review_decision_amended_witness :
    (human_review_decision tcP5 dW8b 6).1.regeneration_count
      = tcP5.regeneration_count + 1 ∧
    (human_review_decision tcP5 dW8b 6).1.status = "stale" ∧
    ∃ ev, (human_review_decision tcP5 dW8b 6).2.1 = some ev ∧
      ev.reviewer = "human-qa" ∧ ev.action = "request_regeneration" ∧
      ev.requirement_id = (regenerateTc tcP5 dW8b).requirement_id ∧
      (ev.diffs ≠ none ↔ editsTruthy dW8b.edits = true) := by
  have h := (human_review_decision_amended tcP5 dW8b 6).2.2 rfl
  exact ⟨h.1 [("gherkin", EditVal.s "Given an edited scenario")] rfl (by decide),
    h.2.2.1 [("gherkin", EditVal.s "Given an edited scenario")] rfl (by decide),
    h.2.2.2.2⟩

/-- Claim C10: a decision string matching none of approve, reject or
regenerate leaves the TestCase entirely unchanged, appends no
ReviewEvent, and still returns a success response reporting the
unchanged status. -/
theorem human_review_unknown_decision_noop (tc : TestCase) (d : HRDecision)
    (now : Nat) (h1 : d.decision ≠ "approve") (h2 : d.decision ≠ "reject")
    (h3 : d.decision ≠ "regenerate") :
    human_review_decision tc d now
      = (tc, none,
         { test_case_id := d.test_case_id
           decision := d.decision
           status := tc.status
           regeneration_count := tc.regeneration_count
           message := "Test case " ++ d.decision ++ " by human QA" }) := by
  unfold human_review_decision
  rw [if_neg h1, if_neg h2, if_neg h3]

def dW10 : HRDecision :=
  { test_case_id := 10, decision := "escalate", notes := some "needs a second opinion"
    edits := none, regenerate_reason := none }

/-- Witness for claim C10 at the unknown decision string escalate. -/
theorem human_review_unknown_decision_noop_witness :
    human_review_decision tcW1 dW10 6
      = (tcW1, none,
         { test_case_id := dW10.test_case_id
           decision := dW10.decision
           status := tcW1.status
           regeneration_count := tcW1.regeneration_count
           message := "Test case " ++ dW10.decision ++ " by human QA" }) :=
  human_review_unknown_decision_noop tcW1 dW10 6 (by decide) (by decide) (by decide)
